import Mathlib

/-!
Shallow embedding of `pkg/stanza/fileconsumer/reader_factory.go`:
the `readerFactory` / `readerBuilder` construction path for `Reader`s
(`newReader`, `copy`, `unsafeReader`, `readerBuilder.build`), together with
the small pieces of the package it calls that are specified at their
interface (fingerprint capture and copy, attribute-map copy, `offsetToEnd`).

Opaque external values (a `bufio.SplitFunc`, a decoded encoding, a built
operator pipeline, an operator list) are represented by `Nat` tokens: `build`
never inspects them, it only threads them through and compares against `nil`.
Fallible external calls (`splitterFactory.Build`, `encodingConfig.Build`,
`pipeline.Config.Build`, `Pipeline.Start`, `filepath.EvalSymlinks`,
`filepath.Abs`, `os.File.Stat`, positioned reads) are modelled as explicit
result-returning functions, bundled in an environment `Env` or on the `File`
value itself.
-/

/-- Association-list lookup, modelling Go `m[k]` on a `map[string]any`
whose values here are the strings `build` inserts. -/
def mapLookup (m : List (String × String)) (k : String) : Option String :=
  match m with
  | [] => none
  | (k', v) :: rest => if k' = k then some v else mapLookup rest k

/-- Association-list key removal, modelling Go `delete(m, k)`. -/
def mapDelete (m : List (String × String)) (k : String) : List (String × String) :=
  m.filter (fun p => !(p.1 == k))

/-- Association-list insert/replace, modelling Go `m[k] = v`. -/
def mapSet (m : List (String × String)) (k v : String) : List (String × String) :=
  (k, v) :: mapDelete m k

/-- Modelled from the spec: `util.MapCopy` (not under src/) returns a copy of
the attribute mapping; at the value level the entries are unchanged.
Independence of the backing storage is modelled separately on `Mem`. -/
def MapCopy (m : List (String × String)) : List (String × String) := m

/-- Characters of `p` with trailing `/` separators removed,
mirroring the first loop of Go `filepath.Base`. -/
def stripTrailingSep (cs : List Char) : List Char :=
  (cs.reverse.dropWhile (fun c => c == '/')).reverse

/-- The characters after the last `/` separator,
mirroring the final step of Go `filepath.Base`. -/
def afterLastSep (cs : List Char) : List Char :=
  (cs.reverse.takeWhile (fun c => !(c == '/'))).reverse

/-- Go `filepath.Base` on a unix-style path: `"."` for the empty path,
`"/"` for an all-separator path, otherwise the last path element. -/
def filepathBase (p : String) : String :=
  if p = "" then "."
  else
    let cs := stripTrailingSep p.data
    if cs.isEmpty then "/" else String.mk (afterLastSep cs)

/-- Attribute key for the file name (package-level constant of fileconsumer). -/
def logFileName : String := "log.file.name"

/-- Attribute key for the file path (package-level constant of fileconsumer). -/
def logFilePath : String := "log.file.path"

/-- Attribute key for the symlink-resolved file name (package-level constant). -/
def logFileNameResolved : String := "log.file.name_resolved"

/-- Attribute key for the symlink-resolved file path (package-level constant). -/
def logFilePathResolved : String := "log.file.path_resolved"

/-- An open file handle: its path name, current content (byte list), and
whether `Stat` or positioned reads on the handle fail. -/
structure File where
  name : String
  content : List Nat
  statErr : Bool
  readErr : Bool
deriving DecidableEq, Repr, Inhabited

/-- A content-identity token: the file's leading bytes
(`fingerprint.Fingerprint`). -/
structure Fingerprint where
  firstBytes : List Nat
deriving DecidableEq, Repr, Inhabited

/-- Modelled from the spec: `Fingerprint.Copy` (not under src/) returns an
independent value copy with byte-equal content; at the value level the bytes
are unchanged. Independence of backing storage is modelled separately on
`Mem`. -/
def Fingerprint.Copy (fp : Fingerprint) : Fingerprint :=
  ⟨fp.firstBytes⟩

/-- Modelled from the spec: `fingerprint.New(file, size)` (not under src/)
captures up to `size` leading bytes of the file with an independent
positioned read; a read failure on the handle is an IOError. -/
def Fingerprint.New (file : File) (size : Nat) : Except String Fingerprint :=
  if file.readErr then .error "reading fingerprint bytes"
  else .ok ⟨file.content.take size⟩

/-- The processing function a built Reader dispatches records to:
`readerConfig.emit` in the normal phase, `Reader.consumeHeaderLine` in the
header phase. `build` only selects between them. -/
inductive ProcessFunc where
  | emit
  | consumeHeaderLine
deriving DecidableEq, Repr, Inhabited

/-- The fields of `readerConfig` that `readerBuilder.build` reads. -/
structure readerConfig where
  fingerprintSize : Nat
  maxLogSize : Nat
  includeFileName : Bool
  includeFilePath : Bool
  includeFileNameResolved : Bool
  includeFilePathResolved : Bool
deriving DecidableEq, Repr

/-- The fields of `headerSettings` that `readerBuilder.build` reads: the
header split function and `config.MetadataOperators` (an opaque token). -/
structure headerSettings where
  splitFunc : Nat
  metadataOperators : Nat
deriving DecidableEq, Repr

/-- External fallible calls made by `readerBuilder.build`: path resolution
(value returned together with an error flag, since Go logs the error and
keeps the returned value), the OS, and the operator-pipeline framework. -/
structure Env where
  isWindows : Bool
  evalSymlinks : String → String × Bool
  abs : String → String × Bool
  pipelineBuild : Nat → Except String Nat
  pipelineStart : Nat → Except String Unit

/-- `readerFactory`: configuration shared by all Readers it builds.
`splitterFactoryBuild` is `splitterFactory.Build` (max log size → split
function token); `encodingBuild` is the outcome of `encodingConfig.Build()`. -/
structure readerFactory where
  config : readerConfig
  fromBeginning : Bool
  splitterFactoryBuild : Nat → Except String Nat
  encodingBuild : Except String Nat
  headerSettings : Option headerSettings

/-- A built `Reader` (the fields `readerBuilder.build` assigns). `logged`
records the non-fatal errors written to the logger during construction. -/
structure Reader where
  offset : Nat
  headerFinalized : Bool
  fileAttributes : List (String × String)
  lineSplitFunc : Nat
  splitFunc : Nat
  processFunc : ProcessFunc
  encoding : Nat
  headerPipeline : Option Nat
  headerPipelineOutput : Bool
  file : Option File
  fingerprint : Option Fingerprint
  loggerPath : String
  logged : List String
deriving DecidableEq, Repr, Inhabited

/-- `readerBuilder`: the partially-applied construction state. -/
structure readerBuilder where
  factory : readerFactory
  file : Option File
  fp : Option Fingerprint
  offset : Nat
  splitFunc : Option Nat
  headerFinalized : Bool
  fileAttributes : List (String × String)

/-- `readerFactory.newReaderBuilder`: empty builder with a fresh empty
attribute map. -/
def readerFactory.newReaderBuilder (f : readerFactory) : readerBuilder :=
  { factory := f, file := none, fp := none, offset := 0, splitFunc := none,
    headerFinalized := false, fileAttributes := [] }

/-- `readerBuilder.withSplitterFunc`. -/
def readerBuilder.withSplitterFunc (b : readerBuilder) (s : Nat) : readerBuilder :=
  { b with splitFunc := some s }

/-- `readerBuilder.withFile`. -/
def readerBuilder.withFile (b : readerBuilder) (f : Option File) : readerBuilder :=
  { b with file := f }

/-- `readerBuilder.withFingerprint`. -/
def readerBuilder.withFingerprint (b : readerBuilder) (fp : Option Fingerprint) : readerBuilder :=
  { b with fp := fp }

/-- `readerBuilder.withOffset`. -/
def readerBuilder.withOffset (b : readerBuilder) (off : Nat) : readerBuilder :=
  { b with offset := off }

/-- `readerBuilder.withHeaderFinalized`. -/
def readerBuilder.withHeaderFinalized (b : readerBuilder) (fin : Bool) : readerBuilder :=
  { b with headerFinalized := fin }

/-- `readerBuilder.withFileAttributes`. -/
def readerBuilder.withFileAttributes (b : readerBuilder) (attrs : List (String × String)) : readerBuilder :=
  { b with fileAttributes := attrs }

/-- Modelled from the spec: `Reader.offsetToEnd` (not under src/) sets Offset
to the current file length without emitting anything; a `Stat` failure on the
handle is an IOError. -/
def offsetToEnd (file : File) : Except String Nat :=
  if file.statErr then .error "stat" else .ok file.content.length

/-- The split-function source for `r.lineSplitFunc`: the builder's override
if set, otherwise `b.splitterFactory.Build(b.readerConfig.maxLogSize)`. -/
def buildLineSplit (b : readerBuilder) : Except String Nat :=
  match b.splitFunc with
  | some s => .ok s
  | none => b.factory.splitterFactoryBuild b.factory.config.maxLogSize

/-- The phase-dependent fields `build` assigns before binding the file. -/
structure PhaseResult where
  splitFunc : Nat
  processFunc : ProcessFunc
  headerPipeline : Option Nat
  headerPipelineOutput : Bool
deriving DecidableEq, Repr

/-- The `if b.headerSettings == nil || b.headerFinalized` block of `build`:
normal phase uses the line split function and `emit`; otherwise the header
split function and `consumeHeaderLine` with a built-and-started header
pipeline, failing construction if the pipeline fails to build or start. -/
def buildPhase (env : Env) (b : readerBuilder) (lineSplit : Nat) : Except String PhaseResult :=
  match b.factory.headerSettings with
  | none => .ok ⟨lineSplit, .emit, none, false⟩
  | some hs =>
    if b.headerFinalized then .ok ⟨lineSplit, .emit, none, false⟩
    else
      match env.pipelineBuild hs.metadataOperators with
      | .error e => .error ("failed to build pipeline: " ++ e)
      | .ok p =>
        match env.pipelineStart p with
        | .error e => .error ("failed to start header pipeline: " ++ e)
        | .ok _ => .ok ⟨hs.splitFunc, .consumeHeaderLine, some p, true⟩

/-- The symlink/absolute path resolution block of `build`: returns the
absolute path fed to the resolved attributes and the list of non-fatal
errors logged (`EvalSymlinks` is skipped on windows; on error the returned
value is kept and the error only logged). -/
def resolvePaths (env : Env) (name : String) : String × List String :=
  let (resolved, logs1) :=
    if env.isWindows then (name, ([] : List String))
    else
      let r := env.evalSymlinks name
      (r.1, if r.2 then ["resolve symlinks"] else [])
  let a := env.abs resolved
  (a.1, logs1 ++ (if a.2 then ["resolve abs"] else []))

/-- The value the `resolved` variable holds when `build` calls
`filepath.Abs`: the file's name on windows, otherwise whatever
`EvalSymlinks` returned (kept even when it errored). -/
def resolvedName (env : Env) (name : String) : String :=
  if env.isWindows then name else (env.evalSymlinks name).1

/-- One attribute-inclusion block of `build`: `if include { m[k] = v } else if
m[k] != nil { delete(m, k) }` — the same shape is repeated for each of the
four file attributes. -/
def setOrDelete (inc : Bool) (m : List (String × String)) (k v : String) :
    List (String × String) :=
  if inc then mapSet m k v
  else if (mapLookup m k).isSome then mapDelete m k
  else m

/-- The four attribute-inclusion blocks of `build`, in source order:
file name, file path, resolved file name, resolved file path. -/
def applyAttrs (cfg : readerConfig) (attrs : List (String × String))
    (name absPath : String) : List (String × String) :=
  setOrDelete cfg.includeFilePathResolved
    (setOrDelete cfg.includeFileNameResolved
      (setOrDelete cfg.includeFilePath
        (setOrDelete cfg.includeFileName attrs logFileName (filepathBase name))
        logFilePath name)
      logFileNameResolved (filepathBase absPath))
    logFilePathResolved absPath

/-- Assembles the `Reader` record from the pieces `build` computed. -/
def mkReader (b : readerBuilder) (ls enc : Nat) (ph : PhaseResult) (off : Nat)
    (file : Option File) (fp : Option Fingerprint)
    (attrs : List (String × String)) (lp : String) (logs : List String) : Reader :=
  { offset := off, headerFinalized := b.headerFinalized, fileAttributes := attrs,
    lineSplitFunc := ls, splitFunc := ph.splitFunc, processFunc := ph.processFunc,
    encoding := enc, headerPipeline := ph.headerPipeline,
    headerPipelineOutput := ph.headerPipelineOutput, file := file,
    fingerprint := fp, loggerPath := lp, logged := logs }

/-- The tail of `build` once a file is bound: resolve paths (non-fatal
errors logged), recompute the attribute map, seek to end unless
`fromBeginning`, then take the supplied fingerprint verbatim or capture a
fresh one (a capture failure fails construction). -/
def finishWithFile (env : Env) (b : readerBuilder) (ls enc : Nat)
    (ph : PhaseResult) (file : File) : Except String Reader :=
  let pr := resolvePaths env file.name
  let attrs := applyAttrs b.factory.config b.fileAttributes file.name pr.1
  match (if b.factory.fromBeginning then Except.ok b.offset else offsetToEnd file) with
  | .error e => .error e
  | .ok off =>
    match b.fp with
    | some fp => .ok (mkReader b ls enc ph off (some file) (some fp) attrs file.name pr.2)
    | none =>
      match Fingerprint.New file b.factory.config.fingerprintSize with
      | .error e => .error e
      | .ok fp => .ok (mkReader b ls enc ph off (some file) (some fp) attrs file.name pr.2)

/-- `readerBuilder.build`, in source order: line split function, encoding,
phase selection (with header pipeline construction), then — only when a file
is bound — path/attribute resolution, optional seek-to-end, and fingerprint
selection or capture. With no bound file it returns immediately after the
phase block with the logger path `"uninitialized"`. -/
def readerBuilder.build (env : Env) (b : readerBuilder) : Except String Reader :=
  match buildLineSplit b with
  | .error e => .error e
  | .ok ls =>
    match b.factory.encodingBuild with
    | .error e => .error e
    | .ok enc =>
      match buildPhase env b ls with
      | .error e => .error e
      | .ok ph =>
        match b.file with
        | none => .ok (mkReader b ls enc ph b.offset none none b.fileAttributes "uninitialized" [])
        | some file => finishWithFile env b ls enc ph file

/-- `readerFactory.newReader`: fresh Reader on a handle with an optional
pre-computed fingerprint. -/
def readerFactory.newReader (env : Env) (f : readerFactory)
    (file : Option File) (fp : Option Fingerprint) : Except String Reader :=
  ((f.newReaderBuilder.withFile file).withFingerprint fp).build env

/-- `readerFactory.copy`: successor Reader on `newFile` inheriting the old
Reader's offset, cloned fingerprint, line split function, copied attribute
map and header-finalized flag. -/
def readerFactory.copy (env : Env) (f : readerFactory)
    (old : Reader) (newFile : File) : Except String Reader :=
  (((((f.newReaderBuilder.withFile (some newFile)).withFingerprint
        (old.fingerprint.map Fingerprint.Copy)).withOffset
        old.offset).withSplitterFunc old.lineSplitFunc).withHeaderFinalized
        old.headerFinalized).withFileAttributes (MapCopy old.fileAttributes) |>.build env

/-- `readerFactory.unsafeReader`: Reader with no bound handle. -/
def readerFactory.unsafeReader (env : Env) (f : readerFactory) : Except String Reader :=
  f.newReaderBuilder.build env

/-- `readerFactory.newFingerprint`: capture with the configured size. -/
def readerFactory.newFingerprint (f : readerFactory) (file : File) : Except String Fingerprint :=
  Fingerprint.New file f.config.fingerprintSize

/-!
Backing-storage model. Go fingerprints carry a byte slice and attribute maps
are reference values, so "independent copy" is a statement about heap cells,
not about the values alone. `Mem` is a heap of fingerprint byte cells and
attribute-map cells addressed by index; `Fingerprint.Copy` / `util.MapCopy`
allocate a fresh cell holding the same content.
-/

/-- Cell read with default, over a list of cells addressed by index. -/
def cellGet (cells : List α) (a : Nat) (d : α) : α :=
  match cells, a with
  | [], _ => d
  | x :: _, 0 => x
  | _ :: xs, n + 1 => cellGet xs n d

/-- In-place cell update (out-of-range writes are dropped). -/
def cellSet (cells : List α) (a : Nat) (v : α) : List α :=
  match cells, a with
  | [], _ => []
  | _ :: xs, 0 => v :: xs
  | x :: xs, n + 1 => x :: cellSet xs n v

/-- Heap of fingerprint byte buffers and attribute maps. -/
structure Mem where
  fpCells : List (List Nat)
  mapCells : List (List (String × String))
deriving DecidableEq, Repr

/-- Bytes of the fingerprint stored at address `a`. -/
def Mem.readFp (m : Mem) (a : Nat) : List Nat :=
  cellGet m.fpCells a []

/-- Mutates the fingerprint buffer at address `a`. -/
def Mem.writeFp (m : Mem) (a : Nat) (bs : List Nat) : Mem :=
  { m with fpCells := cellSet m.fpCells a bs }

/-- Entries of the attribute map stored at address `a`. -/
def Mem.readMap (m : Mem) (a : Nat) : List (String × String) :=
  cellGet m.mapCells a []

/-- Mutates the attribute map at address `a`. -/
def Mem.writeMap (m : Mem) (a : Nat) (entries : List (String × String)) : Mem :=
  { m with mapCells := cellSet m.mapCells a entries }

/-- Allocates a fresh fingerprint cell; returns the new heap and address. -/
def Mem.allocFp (m : Mem) (bs : List Nat) : Mem × Nat :=
  ({ m with fpCells := m.fpCells ++ [bs] }, m.fpCells.length)

/-- Allocates a fresh attribute-map cell; returns the new heap and address. -/
def Mem.allocMap (m : Mem) (entries : List (String × String)) : Mem × Nat :=
  ({ m with mapCells := m.mapCells ++ [entries] }, m.mapCells.length)

/-- Modelled from the spec: the heap effect of `Fingerprint.Copy` (not under
src/) — allocate fresh backing storage holding the same bytes. -/
def Fingerprint.copyAlloc (m : Mem) (a : Nat) : Mem × Nat :=
  m.allocFp (m.readFp a)

/-- Modelled from the spec: the heap effect of `util.MapCopy` (not under
src/) — allocate a fresh map holding the same entries. -/
def MapCopyAlloc (m : Mem) (a : Nat) : Mem × Nat :=
  m.allocMap (m.readMap a)

/-- The allocations `readerFactory.copy` performs for the successor:
`old.Fingerprint.Copy()` and `util.MapCopy(old.FileAttributes)`, given the
addresses of the old Reader's fingerprint and attribute map. Returns the new
heap and the successor's two addresses. -/
def readerFactory.copyClones (m : Mem) (fpAddr mapAddr : Nat) : Mem × Nat × Nat :=
  let fpRes := Fingerprint.copyAlloc m fpAddr
  let mapRes := MapCopyAlloc fpRes.1 mapAddr
  (mapRes.1, fpRes.2, mapRes.2)

/-!
Concrete fixtures used to instantiate the theorems below on executable
inputs: an all-succeeding environment, a small configuration, files, and
the Readers the factory builds from them.
-/

/-- Environment in which every external call succeeds. -/
def env0 : Env where
  isWindows := false
  evalSymlinks := fun s => (s, false)
  abs := fun s => ("/var/log/" ++ s, false)
  pipelineBuild := fun _ => .ok 9
  pipelineStart := fun _ => .ok ()

/-- Environment whose symlink resolution fails. -/
def envSym : Env := { env0 with evalSymlinks := fun _ => ("", true) }

/-- Environment whose header-pipeline build fails. -/
def envPipeErr : Env := { env0 with pipelineBuild := fun _ => .error "boom" }

/-- Small configuration: name/path attributes on, resolved attributes off. -/
def cfg0 : readerConfig where
  fingerprintSize := 4
  maxLogSize := 100
  includeFileName := true
  includeFilePath := true
  includeFileNameResolved := false
  includeFilePathResolved := false

/-- Factory reading from the beginning, without header settings. -/
def fac0 : readerFactory where
  config := cfg0
  fromBeginning := true
  splitterFactoryBuild := fun _ => .ok 1
  encodingBuild := .ok 0
  headerSettings := none

/-- Factory configured to start at the end of newly discovered files. -/
def facEnd : readerFactory := { fac0 with fromBeginning := false }

/-- Header settings with split-function token 7 and operator token 2. -/
def hs0 : headerSettings := { splitFunc := 7, metadataOperators := 2 }

/-- Factory with header settings configured. -/
def facH : readerFactory := { fac0 with headerSettings := some hs0 }

/-- A healthy two-byte file. -/
def file0 : File := { name := "app.log", content := [65, 10], statErr := false, readErr := false }

/-- A healthy twelve-byte rotated file. -/
def file12 : File :=
  { name := "app.log.1", content := List.replicate 12 7, statErr := false, readErr := false }

/-- A file whose positioned reads fail (fingerprint capture fails on it). -/
def fileRdErr : File := { file0 with readErr := true }

/-- A previously built Reader: finalized header, five bytes consumed. -/
def old5 : Reader where
  offset := 5
  headerFinalized := true
  fileAttributes := [(logFileName, "app.log")]
  lineSplitFunc := 3
  splitFunc := 3
  processFunc := .emit
  encoding := 0
  headerPipeline := none
  headerPipelineOutput := false
  file := some file0
  fingerprint := some ⟨[65, 10]⟩
  loggerPath := "app.log"
  logged := []

/-- Extracts the Reader from a successful construction (default on error). -/
def okOr (x : Except String Reader) : Reader :=
  match x with
  | .ok r => r
  | .error _ => default

/-- The builder `newReader env0 fac0 file0` runs. -/
def b0 : readerBuilder := (fac0.newReaderBuilder.withFile (some file0)).withFingerprint none

/-- The Reader `newReader env0 fac0 file0` builds. -/
def rNew0 : Reader := okOr (b0.build env0)

/-- The builder `newReader env0 facEnd file12` runs. -/
def bEnd : readerBuilder := (facEnd.newReaderBuilder.withFile (some file12)).withFingerprint none

/-- The Reader `newReader env0 facEnd file12` builds (start-at-end). -/
def rNewEnd : Reader := okOr (bEnd.build env0)

/-- The builder `newReader env0 facH file0` runs (header phase). -/
def bH : readerBuilder := (facH.newReaderBuilder.withFile (some file0)).withFingerprint none

/-- The Reader `newReader env0 facH file0` builds (header phase). -/
def rNewH : Reader := okOr (bH.build env0)

/-- The builder `copy env0 fac0 old5 file12` runs. -/
def bCopyBeg : readerBuilder :=
  ((((fac0.newReaderBuilder.withFile (some file12)).withFingerprint
      (old5.fingerprint.map Fingerprint.Copy)).withOffset
      old5.offset).withSplitterFunc old5.lineSplitFunc).withHeaderFinalized
      old5.headerFinalized |>.withFileAttributes (MapCopy old5.fileAttributes)

/-- The successor Reader `copy env0 fac0 old5 file12` builds. -/
def rCopyBeg : Reader := okOr (readerFactory.copy env0 fac0 old5 file12)

/-- The successor Reader `copy env0 facEnd old5 file12` builds. -/
def rCopyEnd : Reader := okOr (readerFactory.copy env0 facEnd old5 file12)

/-- The Reader `unsafeReader env0 facEnd` builds. -/
def rUnsafe : Reader := okOr (readerFactory.unsafeReader env0 facEnd)

/-- The builder `newReader envSym fac0 file0` runs (failing symlinks). -/
def bSym : readerBuilder := b0

/-- The builder `newReader env0 fac0 fileRdErr` runs (capture must fail). -/
def bRdErr : readerBuilder :=
  (fac0.newReaderBuilder.withFile (some fileRdErr)).withFingerprint none

/-- Environment whose absolute-path resolution fails (symlinks succeed). -/
def envAbsErr : Env := { env0 with abs := fun _ => ("", true) }

/-- The Reader built under failing symlink resolution. -/
def rSym : Reader := okOr (readerBuilder.build envSym b0)

/-- The Reader built under failing absolute-path resolution. -/
def rAbsErr : Reader := okOr (readerBuilder.build envAbsErr b0)

/-- A tiny two-cell heap for the backing-storage theorems. -/
def mem0 : Mem := { fpCells := [[65, 10]], mapCells := [[(logFileName, "app.log")]] }

/-!
Helper lemmas shared by the claim theorems.
-/

theorem mapLookup_delete (m : List (String × String)) (k k' : String) :
    mapLookup (mapDelete m k) k' = if k' = k then none else mapLookup m k' := by
  induction m with
  | nil => simp [mapDelete, mapLookup]
  | cons p rest ih =>
    obtain ⟨k1, v⟩ := p
    simp only [mapDelete, List.filter_cons] at *
    by_cases h1 : k1 = k <;> by_cases h2 : k1 = k' <;> by_cases h3 : k' = k <;>
      simp_all [mapLookup, mapDelete]

theorem mapLookup_set (m : List (String × String)) (k k' v : String) :
    mapLookup (mapSet m k v) k' = if k = k' then some v else mapLookup m k' := by
  by_cases h : k = k'
  · subst h; simp [mapSet, mapLookup]
  · have h2 : ¬k' = k := fun hh => h hh.symm
    simp [mapSet, mapLookup, mapLookup_delete, h, h2]

theorem mapLookup_setOrDelete_self (inc : Bool) (m : List (String × String)) (k v : String) :
    mapLookup (setOrDelete inc m k v) k = if inc then some v else none := by
  unfold setOrDelete
  split_ifs with h1 h2 <;> simp_all [mapLookup_set, mapLookup_delete]

theorem mapLookup_setOrDelete_ne (inc : Bool) (m : List (String × String)) (k v k' : String)
    (h : k' ≠ k) : mapLookup (setOrDelete inc m k v) k' = mapLookup m k' := by
  unfold setOrDelete
  split_ifs <;> simp_all [mapLookup_set, mapLookup_delete, Ne.symm h]

theorem name_ne_path : logFileName ≠ logFilePath := by decide

theorem name_ne_nameRes : logFileName ≠ logFileNameResolved := by decide

theorem name_ne_pathRes : logFileName ≠ logFilePathResolved := by decide

theorem path_ne_name : logFilePath ≠ logFileName := by decide

theorem path_ne_nameRes : logFilePath ≠ logFileNameResolved := by decide

theorem path_ne_pathRes : logFilePath ≠ logFilePathResolved := by decide

theorem nameRes_ne_name : logFileNameResolved ≠ logFileName := by decide

theorem nameRes_ne_path : logFileNameResolved ≠ logFilePath := by decide

theorem nameRes_ne_pathRes : logFileNameResolved ≠ logFilePathResolved := by decide

theorem pathRes_ne_name : logFilePathResolved ≠ logFileName := by decide

theorem pathRes_ne_path : logFilePathResolved ≠ logFilePath := by decide

theorem pathRes_ne_nameRes : logFilePathResolved ≠ logFileNameResolved := by decide

theorem applyAttrs_lookup (cfg : readerConfig) (attrs : List (String × String))
    (name absPath : String) :
    mapLookup (applyAttrs cfg attrs name absPath) logFileName
      = (if cfg.includeFileName then some (filepathBase name) else none) ∧
    mapLookup (applyAttrs cfg attrs name absPath) logFilePath
      = (if cfg.includeFilePath then some name else none) ∧
    mapLookup (applyAttrs cfg attrs name absPath) logFileNameResolved
      = (if cfg.includeFileNameResolved then some (filepathBase absPath) else none) ∧
    mapLookup (applyAttrs cfg attrs name absPath) logFilePathResolved
      = (if cfg.includeFilePathResolved then some absPath else none) := by
  unfold applyAttrs
  refine ⟨?_, ?_, ?_, ?_⟩
  · rw [mapLookup_setOrDelete_ne _ _ _ _ _ name_ne_pathRes,
      mapLookup_setOrDelete_ne _ _ _ _ _ name_ne_nameRes,
      mapLookup_setOrDelete_ne _ _ _ _ _ name_ne_path,
      mapLookup_setOrDelete_self]
  · rw [mapLookup_setOrDelete_ne _ _ _ _ _ path_ne_pathRes,
      mapLookup_setOrDelete_ne _ _ _ _ _ path_ne_nameRes,
      mapLookup_setOrDelete_self]
  · rw [mapLookup_setOrDelete_ne _ _ _ _ _ nameRes_ne_pathRes,
      mapLookup_setOrDelete_self]
  · rw [mapLookup_setOrDelete_self]

theorem cellGet_append_self (xs : List α) (v d : α) :
    cellGet (xs ++ [v]) xs.length d = v := by
  induction xs with
  | nil => rfl
  | cons x xs ih => simpa [cellGet] using ih

theorem cellGet_append_lt (xs : List α) (v d : α) (a : Nat) (h : a < xs.length) :
    cellGet (xs ++ [v]) a d = cellGet xs a d := by
  induction xs generalizing a with
  | nil => simp at h
  | cons x xs ih =>
    cases a with
    | zero => rfl
    | succ n =>
      have : n < xs.length := by simpa using h
      simpa [cellGet] using ih n this

theorem cellGet_set_ne (xs : List α) (a b : Nat) (v d : α) (h : a ≠ b) :
    cellGet (cellSet xs a v) b d = cellGet xs b d := by
  induction xs generalizing a b with
  | nil => rfl
  | cons x xs ih =>
    cases a with
    | zero =>
      cases b with
      | zero => exact absurd rfl h
      | succ n => rfl
    | succ m =>
      cases b with
      | zero => rfl
      | succ n =>
        have : m ≠ n := fun hh => h (by simp [hh])
        simpa [cellGet, cellSet] using ih m n this

theorem buildPhase_ok_inv_normal {env : Env} {b : readerBuilder} {ls : Nat} {ph : PhaseResult}
    (h : buildPhase env b ls = .ok ph)
    (hn : b.factory.headerSettings = none ∨ b.headerFinalized = true) :
    ph = ⟨ls, .emit, none, false⟩ := by
  unfold buildPhase at h
  rcases hn with hn | hn
  · rw [hn] at h
    exact (Except.ok.injEq _ _ ▸ h).symm ▸ rfl
  · cases hset : b.factory.headerSettings with
    | none => rw [hset] at h; cases h; rfl
    | some hs => rw [hset, hn] at h; simp at h; exact h.symm

theorem buildPhase_ok_inv_header {env : Env} {b : readerBuilder} {ls : Nat} {ph : PhaseResult}
    {hs : headerSettings} (h : buildPhase env b ls = .ok ph)
    (hset : b.factory.headerSettings = some hs) (hfin : b.headerFinalized = false) :
    ∃ p, env.pipelineBuild hs.metadataOperators = .ok p ∧ env.pipelineStart p = .ok () ∧
      ph = ⟨hs.splitFunc, .consumeHeaderLine, some p, true⟩ := by
  cases hb : env.pipelineBuild hs.metadataOperators with
  | error e =>
    have hv : buildPhase env b ls = .error ("failed to build pipeline: " ++ e) := by
      unfold buildPhase; rw [hset, hfin]; simp [hb]
    rw [hv] at h; cases h
  | ok p =>
    cases hst : env.pipelineStart p with
    | error e =>
      have hv : buildPhase env b ls = .error ("failed to start header pipeline: " ++ e) := by
        unfold buildPhase; rw [hset, hfin]; simp [hb, hst]
      rw [hv] at h; cases h
    | ok u =>
      have hv : buildPhase env b ls = .ok ⟨hs.splitFunc, .consumeHeaderLine, some p, true⟩ := by
        unfold buildPhase; rw [hset, hfin]; simp [hb, hst]
      rw [hv] at h
      simp only [Except.ok.injEq] at h
      subst h
      exact ⟨p, rfl, by cases u; exact hst, rfl⟩

theorem buildPhase_err_header {env : Env} {b : readerBuilder} {ls : Nat}
    {hs : headerSettings} (hset : b.factory.headerSettings = some hs)
    (hfin : b.headerFinalized = false)
    (hfail : (∃ e, env.pipelineBuild hs.metadataOperators = .error e) ∨
      (∃ p e, env.pipelineBuild hs.metadataOperators = .ok p ∧ env.pipelineStart p = .error e)) :
    ∃ e, buildPhase env b ls = .error e := by
  rcases hfail with ⟨e, he⟩ | ⟨p, e, hp, he⟩
  · exact ⟨"failed to build pipeline: " ++ e, by
      unfold buildPhase; rw [hset, hfin]; simp [he]⟩
  · exact ⟨"failed to start header pipeline: " ++ e, by
      unfold buildPhase; rw [hset, hfin]; simp [hp, he]⟩

theorem build_ok_phase {env : Env} {b : readerBuilder} {r : Reader}
    (h : readerBuilder.build env b = .ok r) :
    ∃ ls ph, buildLineSplit b = .ok ls ∧ buildPhase env b ls = .ok ph ∧
      r.lineSplitFunc = ls ∧ r.splitFunc = ph.splitFunc ∧
      r.processFunc = ph.processFunc ∧ r.headerPipeline = ph.headerPipeline ∧
      r.headerPipelineOutput = ph.headerPipelineOutput ∧
      r.headerFinalized = b.headerFinalized := by
  unfold readerBuilder.build at h
  split at h
  · cases h
  · next ls hls =>
    split at h
    · cases h
    · next enc henc =>
      split at h
      · cases h
      · next ph hph =>
        split at h
        · simp only [Except.ok.injEq] at h
          subst h
          exact ⟨ls, ph, hls, hph, rfl, rfl, rfl, rfl, rfl, rfl⟩
        · next file hfile =>
          unfold finishWithFile at h
          split at h
          · cases h
          · next off hoff =>
            split at h
            · next fp hfp =>
              simp only [Except.ok.injEq] at h
              subst h
              exact ⟨ls, ph, hls, hph, rfl, rfl, rfl, rfl, rfl, rfl⟩
            · next hfp =>
              split at h
              · cases h
              · next fp hcap =>
                simp only [Except.ok.injEq] at h
                subst h
                exact ⟨ls, ph, hls, hph, rfl, rfl, rfl, rfl, rfl, rfl⟩

theorem build_ok_nofile {env : Env} {b : readerBuilder} {r : Reader}
    (h : readerBuilder.build env b = .ok r) (hf : b.file = none) :
    r.offset = b.offset ∧ r.file = none ∧ r.fingerprint = none ∧
    r.fileAttributes = b.fileAttributes ∧ r.loggerPath = "uninitialized" ∧
    r.logged = [] := by
  unfold readerBuilder.build at h
  split at h
  · cases h
  · next ls hls =>
    split at h
    · cases h
    · next enc henc =>
      split at h
      · cases h
      · next ph hph =>
        split at h
        · simp only [Except.ok.injEq] at h
          subst h
          exact ⟨rfl, rfl, rfl, rfl, rfl, rfl⟩
        · next file hfile => rw [hf] at hfile; cases hfile

theorem build_ok_file {env : Env} {b : readerBuilder} {r : Reader} {file : File}
    (h : readerBuilder.build env b = .ok r) (hf : b.file = some file) :
    r.file = some file ∧ r.loggerPath = file.name ∧
    r.logged = (resolvePaths env file.name).2 ∧
    r.fileAttributes
      = applyAttrs b.factory.config b.fileAttributes file.name (resolvePaths env file.name).1 ∧
    (b.factory.fromBeginning = true → r.offset = b.offset) ∧
    (b.factory.fromBeginning = false → file.statErr = false ∧ r.offset = file.content.length) ∧
    (∀ fp, b.fp = some fp → r.fingerprint = some fp) ∧
    (b.fp = none → file.readErr = false ∧
      r.fingerprint = some ⟨file.content.take b.factory.config.fingerprintSize⟩) := by
  unfold readerBuilder.build at h
  split at h
  · cases h
  · next ls hls =>
    split at h
    · cases h
    · next enc henc =>
      split at h
      · cases h
      · next ph hph =>
        split at h
        · next hnone => rw [hf] at hnone; cases hnone
        · next file' hfile =>
          rw [hf] at hfile
          simp only [Option.some.injEq] at hfile
          subst hfile
          unfold finishWithFile at h
          split at h
          · cases h
          · next off hoff =>
            have hoffFacts :
                (b.factory.fromBeginning = true → off = b.offset) ∧
                (b.factory.fromBeginning = false →
                  file.statErr = false ∧ off = file.content.length) := by
              constructor
              · intro hfb
                rw [hfb] at hoff
                simp only [if_true] at hoff
                cases hoff; rfl
              · intro hfb
                rw [hfb] at hoff
                simp only [Bool.false_eq_true, if_false] at hoff
                unfold offsetToEnd at hoff
                cases hstat : file.statErr with
                | true => rw [hstat] at hoff; simp at hoff
                | false => rw [hstat] at hoff; simp at hoff; exact ⟨rfl, hoff.symm⟩
            split at h
            · next fp hfp =>
              simp only [Except.ok.injEq] at h
              subst h
              refine ⟨rfl, rfl, rfl, rfl, hoffFacts.1, hoffFacts.2, ?_, ?_⟩
              · intro fp' hfp'
                rw [hfp] at hfp'
                simp only [Option.some.injEq] at hfp'
                subst hfp'
                rfl
              · intro hnone; rw [hfp] at hnone; cases hnone
            · next hfp =>
              split at h
              · cases h
              · next fp hcap =>
                simp only [Except.ok.injEq] at h
                subst h
                refine ⟨rfl, rfl, rfl, rfl, hoffFacts.1, hoffFacts.2, ?_, ?_⟩
                · intro fp' hfp'
                  rw [hfp] at hfp'
                  cases hfp'
                · intro _
                  unfold Fingerprint.New at hcap
                  cases hrd : file.readErr with
                  | true => rw [hrd] at hcap; simp at hcap
                  | false =>
                    rw [hrd] at hcap
                    simp only [Bool.false_eq_true, if_false, Except.ok.injEq] at hcap
                    subst hcap
                    exact ⟨rfl, rfl⟩

theorem build_err_of_pipeline {env : Env} {b : readerBuilder} {hs : headerSettings}
    (hset : b.factory.headerSettings = some hs) (hfin : b.headerFinalized = false)
    (hfail : (∃ e, env.pipelineBuild hs.metadataOperators = .error e) ∨
      (∃ p e, env.pipelineBuild hs.metadataOperators = .ok p ∧ env.pipelineStart p = .error e)) :
    ∃ e, readerBuilder.build env b = .error e := by
  cases hls : buildLineSplit b with
  | error e => exact ⟨e, by unfold readerBuilder.build; simp [hls]⟩
  | ok ls =>
    cases henc : b.factory.encodingBuild with
    | error e => exact ⟨e, by unfold readerBuilder.build; simp [hls, henc]⟩
    | ok enc =>
      obtain ⟨e, he⟩ := @buildPhase_err_header env b ls hs hset hfin hfail
      exact ⟨e, by unfold readerBuilder.build; simp [hls, henc, he]⟩

theorem resolvePaths_symlink_logged (env : Env) (name : String)
    (hw : env.isWindows = false) (hsym : (env.evalSymlinks name).2 = true) :
    "resolve symlinks" ∈ (resolvePaths env name).2 := by
  unfold resolvePaths
  simp [hw, hsym]

theorem build_ok_construct {env : Env} {b : readerBuilder} {file : File}
    {ls enc : Nat} {ph : PhaseResult}
    (hf : b.file = some file) (hls : buildLineSplit b = .ok ls)
    (henc : b.factory.encodingBuild = .ok enc) (hph : buildPhase env b ls = .ok ph)
    (hstat : b.factory.fromBeginning = true ∨ file.statErr = false)
    (hfp : b.fp.isSome ∨ file.readErr = false) :
    ∃ r, readerBuilder.build env b = .ok r ∧
      r.logged = (resolvePaths env file.name).2 := by
  have hbuild : readerBuilder.build env b = finishWithFile env b ls enc ph file := by
    unfold readerBuilder.build
    simp [hls, henc, hph, hf]
  rw [hbuild]
  unfold finishWithFile
  have hoff : ∃ off,
      (if b.factory.fromBeginning then Except.ok b.offset else offsetToEnd file)
        = Except.ok off := by
    cases hfb : b.factory.fromBeginning with
    | true => exact ⟨b.offset, by simp⟩
    | false =>
      rcases hstat with hstat | hstat
      · rw [hfb] at hstat; cases hstat
      · exact ⟨file.content.length, by simp [offsetToEnd, hstat]⟩
  obtain ⟨off, hoff⟩ := hoff
  rw [hoff]
  cases hbp : b.fp with
  | some fp => exact ⟨_, rfl, rfl⟩
  | none =>
    have hrd : file.readErr = false := by
      rcases hfp with hfp | hfp
      · rw [hbp] at hfp; cases hfp
      · exact hfp
    have hcap : Fingerprint.New file b.factory.config.fingerprintSize
        = .ok ⟨file.content.take b.factory.config.fingerprintSize⟩ := by
      simp [Fingerprint.New, hrd]
    rw [hcap]
    exact ⟨_, rfl, rfl⟩

theorem newReader_eq_build (env : Env) (f : readerFactory) (file : Option File)
    (fp : Option Fingerprint) :
    readerFactory.newReader env f file fp = readerBuilder.build env
      { factory := f, file := file, fp := fp, offset := 0, splitFunc := none,
        headerFinalized := false, fileAttributes := [] } := rfl

theorem copy_eq_build (env : Env) (f : readerFactory) (old : Reader) (newFile : File) :
    readerFactory.copy env f old newFile = readerBuilder.build env
      { factory := f, file := some newFile,
        fp := old.fingerprint.map Fingerprint.Copy, offset := old.offset,
        splitFunc := some old.lineSplitFunc, headerFinalized := old.headerFinalized,
        fileAttributes := MapCopy old.fileAttributes } := rfl

theorem unsafeReader_eq_build (env : Env) (f : readerFactory) :
    readerFactory.unsafeReader env f
      = readerBuilder.build env f.newReaderBuilder := rfl

/-!
The claim theorems.
-/

/-- C2: header finalization is one-shot: a successful `readerFactory.copy`
of a Reader with HeaderFinalized=true yields a successor with
HeaderFinalized=true, and any successful build with headerFinalized=true or
with no header settings constructs no header pipeline and uses the normal
(line) split function and the emit process function. -/
theorem header_finalized_one_shot :
    (∀ env f old newFile r, old.headerFinalized = true →
      readerFactory.copy env f old newFile = .ok r → r.headerFinalized = true) ∧
    (∀ env b r, b.headerFinalized = true ∨ b.factory.headerSettings = none →
      readerBuilder.build env b = .ok r →
      r.headerPipeline = none ∧ r.headerPipelineOutput = false ∧
      r.splitFunc = r.lineSplitFunc ∧ r.processFunc = .emit) := by
  constructor
  · intro env f old newFile r hold hcopy
    rw [copy_eq_build] at hcopy
    obtain ⟨ls, ph, hls, hph, hlsf, hsf, hpf, hpipe, hout, hfin⟩ := build_ok_phase hcopy
    simpa [hold] using hfin
  · intro env b r hnorm hbuild
    obtain ⟨ls, ph, hls, hph, hlsf, hsf, hpf, hpipe, hout, hfin⟩ := build_ok_phase hbuild
    have hpheq := buildPhase_ok_inv_normal hph (Or.symm hnorm)
    subst hpheq
    simp only at hsf hpf hpipe hout
    exact ⟨hpipe, hout, by rw [hsf, hlsf], hpf⟩

/-- C2 witness: at concrete inputs, the copied successor keeps
HeaderFinalized=true and a header-free build uses the normal functions. -/
theorem header_finalized_one_shot_witness :
    rCopyBeg.headerFinalized = true ∧
    (rCopyBeg.headerPipeline = none ∧ rCopyBeg.headerPipelineOutput = false ∧
      rCopyBeg.splitFunc = rCopyBeg.lineSplitFunc ∧ rCopyBeg.processFunc = .emit) :=
  ⟨header_finalized_one_shot.1 env0 fac0 old5 file12 rCopyBeg rfl rfl,
   header_finalized_one_shot.2 env0 bCopyBeg rCopyBeg (Or.inl rfl) rfl⟩

/-- C3: a successful build starts in the header phase (split function from
the header settings, processFunc = consumeHeaderLine, header pipeline built
and started) iff header settings are configured and headerFinalized is
false; in every other case it uses the line split function and the emit
process function. -/
theorem build_phase_selection (env : Env) (b : readerBuilder) (r : Reader)
    (h : readerBuilder.build env b = .ok r) :
    (r.processFunc = .consumeHeaderLine ↔
      b.factory.headerSettings.isSome ∧ b.headerFinalized = false) ∧
    (∀ hs, b.factory.headerSettings = some hs → b.headerFinalized = false →
      r.splitFunc = hs.splitFunc ∧ r.processFunc = .consumeHeaderLine ∧
      ∃ p, r.headerPipeline = some p ∧ r.headerPipelineOutput = true ∧
        env.pipelineBuild hs.metadataOperators = .ok p ∧
        env.pipelineStart p = .ok ()) ∧
    (b.factory.headerSettings = none ∨ b.headerFinalized = true →
      r.splitFunc = r.lineSplitFunc ∧ r.processFunc = .emit) := by
  obtain ⟨ls, ph, hls, hph, hlsf, hsf, hpf, hpipe, hout, hfin⟩ := build_ok_phase h
  refine ⟨⟨?_, ?_⟩, ?_, ?_⟩
  · intro hproc
    cases hhs : b.factory.headerSettings with
    | none =>
      have hpheq := buildPhase_ok_inv_normal hph (Or.inl hhs)
      subst hpheq
      simp only at hpf
      rw [hpf] at hproc
      cases hproc
    | some hs =>
      cases hbf : b.headerFinalized with
      | false => exact ⟨rfl, rfl⟩
      | true =>
        have hpheq := buildPhase_ok_inv_normal hph (Or.inr hbf)
        subst hpheq
        simp only at hpf
        rw [hpf] at hproc
        cases hproc
  · rintro ⟨hsome, hbf⟩
    obtain ⟨hs, hhs⟩ := Option.isSome_iff_exists.mp hsome
    obtain ⟨p, hpb, hps, hpheq⟩ := buildPhase_ok_inv_header hph hhs hbf
    subst hpheq
    simpa using hpf
  · intro hs hhs hbf
    obtain ⟨p, hpb, hps, hpheq⟩ := buildPhase_ok_inv_header hph hhs hbf
    subst hpheq
    simp only at hsf hpf hpipe hout
    exact ⟨hsf, hpf, p, hpipe, hout, hpb, hps⟩
  · intro hnorm
    have hpheq := buildPhase_ok_inv_normal hph hnorm
    subst hpheq
    simp only at hsf hpf
    exact ⟨by rw [hsf, hlsf], hpf⟩

/-- C3 witness: a build with configured, unfinalized header settings starts
in the header phase with the pipeline built and started. -/
theorem build_phase_selection_witness :
    rNewH.splitFunc = hs0.splitFunc ∧ rNewH.processFunc = .consumeHeaderLine ∧
    ∃ p, rNewH.headerPipeline = some p ∧ rNewH.headerPipelineOutput = true ∧
      env0.pipelineBuild hs0.metadataOperators = .ok p ∧
      env0.pipelineStart p = .ok () :=
  (build_phase_selection env0 bH rNewH rfl).2.1 hs0 rfl rfl

/-- C4: when header settings are present and not finalized and the header
pipeline fails to build or to start, `readerBuilder.build` returns an error
and no Reader. -/
theorem build_pipeline_failure_fatal (env : Env) (b : readerBuilder) (hs : headerSettings)
    (hset : b.factory.headerSettings = some hs) (hfin : b.headerFinalized = false)
    (hfail : (∃ e, env.pipelineBuild hs.metadataOperators = .error e) ∨
      (∃ p e, env.pipelineBuild hs.metadataOperators = .ok p ∧
        env.pipelineStart p = .error e)) :
    (∃ e, readerBuilder.build env b = .error e) ∧
    ∀ r, readerBuilder.build env b ≠ .ok r := by
  obtain ⟨e, he⟩ := build_err_of_pipeline hset hfin hfail
  exact ⟨⟨e, he⟩, fun r hr => by rw [he] at hr; cases hr⟩

/-- C4 witness: with the pipeline build failing, constructing a
header-configured Reader fails. -/
theorem build_pipeline_failure_fatal_witness :
    (∃ e, readerBuilder.build envPipeErr facH.newReaderBuilder = .error e) ∧
    ∀ r, readerBuilder.build envPipeErr facH.newReaderBuilder ≠ .ok r :=
  build_pipeline_failure_fatal envPipeErr facH.newReaderBuilder hs0 rfl rfl
    (Or.inl ⟨"boom", rfl⟩)

/-- C5: a fresh Reader built by `newReader` on a bound file starts at
offset 0 when fromBeginning is true, and at the file's current length when
fromBeginning is false. -/
theorem newReader_start_offset (env : Env) (f : readerFactory) (file : File)
    (fp : Option Fingerprint) (r : Reader)
    (h : readerFactory.newReader env f (some file) fp = .ok r) :
    (f.fromBeginning = true → r.offset = 0) ∧
    (f.fromBeginning = false → r.offset = file.content.length) := by
  rw [newReader_eq_build] at h
  have hfacts := build_ok_file h rfl
  exact ⟨fun hfb => hfacts.2.2.2.2.1 hfb, fun hfb => (hfacts.2.2.2.2.2.1 hfb).2⟩

/-- C5 witness: from the beginning the fresh offset is 0; starting at the
end it is the file's length. -/
theorem newReader_start_offset_witness :
    rNew0.offset = 0 ∧ rNewEnd.offset = file12.content.length :=
  ⟨(newReader_start_offset env0 fac0 file0 none rNew0 rfl).1 rfl,
   (newReader_start_offset env0 facEnd file12 none rNewEnd rfl).2 rfl⟩

/-- C6: on a bound file each of the four file attributes is present in the
built Reader's attribute mapping iff its include flag is set, for every
flag combination and every inherited attribute map (so each flag acts
independently and a disabled flag's inherited attribute is removed). -/
theorem build_attr_inclusion (env : Env) (b : readerBuilder) (r : Reader) (file : File)
    (h : readerBuilder.build env b = .ok r) (hf : b.file = some file) :
    (mapLookup r.fileAttributes logFileName).isSome
      = b.factory.config.includeFileName ∧
    (mapLookup r.fileAttributes logFilePath).isSome
      = b.factory.config.includeFilePath ∧
    (mapLookup r.fileAttributes logFileNameResolved).isSome
      = b.factory.config.includeFileNameResolved ∧
    (mapLookup r.fileAttributes logFilePathResolved).isSome
      = b.factory.config.includeFilePathResolved := by
  have hattrs := (build_ok_file h hf).2.2.2.1
  obtain ⟨h1, h2, h3, h4⟩ := applyAttrs_lookup b.factory.config b.fileAttributes
    file.name (resolvePaths env file.name).1
  rw [hattrs, h1, h2, h3, h4]
  refine ⟨?_, ?_, ?_, ?_⟩ <;>
    [cases b.factory.config.includeFileName;
     cases b.factory.config.includeFilePath;
     cases b.factory.config.includeFileNameResolved;
     cases b.factory.config.includeFilePathResolved] <;> simp

/-- C6 witness: the copied successor of a Reader that inherited a name
attribute keeps name and path (flags on) and has no resolved attributes
(flags off). -/
theorem build_attr_inclusion_witness :
    (mapLookup rCopyBeg.fileAttributes logFileName).isSome = true ∧
    (mapLookup rCopyBeg.fileAttributes logFilePath).isSome = true ∧
    (mapLookup rCopyBeg.fileAttributes logFileNameResolved).isSome = false ∧
    (mapLookup rCopyBeg.fileAttributes logFilePathResolved).isSome = false :=
  build_attr_inclusion env0 bCopyBeg rCopyBeg file12 rfl rfl

/-- C7: fingerprint selection on a bound file: a fingerprint supplied to the
builder is used verbatim (no capture), otherwise a fingerprint of at most
fingerprintSize bytes is captured from the file, and a capture failure makes
construction fail with an error and no Reader. -/
theorem build_fingerprint_selection :
    (∀ env b r file, readerBuilder.build env b = .ok r → b.file = some file →
      (∀ fp, b.fp = some fp → r.fingerprint = some fp) ∧
      (b.fp = none →
        r.fingerprint = some ⟨file.content.take b.factory.config.fingerprintSize⟩ ∧
        (file.content.take b.factory.config.fingerprintSize).length
          ≤ b.factory.config.fingerprintSize)) ∧
    (∀ env b file, b.file = some file → b.fp = none → file.readErr = true →
      ∃ e, readerBuilder.build env b = .error e) := by
  constructor
  · intro env b r file h hf
    have hfacts := build_ok_file h hf
    refine ⟨hfacts.2.2.2.2.2.2.1, fun hnone => ⟨(hfacts.2.2.2.2.2.2.2 hnone).2, ?_⟩⟩
    rw [List.length_take]
    exact Nat.min_le_left _ _
  · intro env b file hf hfp hrd
    cases hls : buildLineSplit b with
    | error e => exact ⟨e, by unfold readerBuilder.build; simp [hls]⟩
    | ok ls =>
      cases henc : b.factory.encodingBuild with
      | error e => exact ⟨e, by unfold readerBuilder.build; simp [hls, henc]⟩
      | ok enc =>
        cases hph : buildPhase env b ls with
        | error e => exact ⟨e, by unfold readerBuilder.build; simp [hls, henc, hph]⟩
        | ok ph =>
          have hbuild : readerBuilder.build env b = finishWithFile env b ls enc ph file := by
            unfold readerBuilder.build; simp [hls, henc, hph, hf]
          rw [hbuild]
          unfold finishWithFile
          cases hfb : b.factory.fromBeginning with
          | true =>
            exact ⟨"reading fingerprint bytes", by simp [hfb, hfp, Fingerprint.New, hrd]⟩
          | false =>
            cases hstat : file.statErr with
            | true => exact ⟨"stat", by simp [hfb, offsetToEnd, hstat]⟩
            | false =>
              exact ⟨"reading fingerprint bytes",
                by simp [hfb, offsetToEnd, hstat, hfp, Fingerprint.New, hrd]⟩

/-- C7 witness: the copied fingerprint is used verbatim, a fresh build
captures the leading bytes, and a failing capture fails the build. -/
theorem build_fingerprint_selection_witness :
    rCopyBeg.fingerprint = some ⟨[65, 10]⟩ ∧
    rNew0.fingerprint = some ⟨file0.content.take 4⟩ ∧
    (∃ e, readerBuilder.build env0 bRdErr = .error e) :=
  ⟨(build_fingerprint_selection.1 env0 bCopyBeg rCopyBeg file12 rfl rfl).1 ⟨[65, 10]⟩ rfl,
   ((build_fingerprint_selection.1 env0 b0 rNew0 file0 rfl rfl).2 rfl).1,
   build_fingerprint_selection.2 env0 bRdErr fileRdErr rfl rfl rfl⟩

/-- C8: `readerFactory.copy` clones the old Reader's fingerprint and
attribute map into fresh backing storage: the successor's copies are
byte- and entry-equal but live at fresh addresses, and mutation through either
side leaves the other side's content unchanged. -/
theorem copy_clones_independent (m : Mem) (fpA mapA : Nat)
    (hfp : fpA < m.fpCells.length) (hmap : mapA < m.mapCells.length) :
    (readerFactory.copyClones m fpA mapA).1.readFp
        (readerFactory.copyClones m fpA mapA).2.1 = m.readFp fpA ∧
    (readerFactory.copyClones m fpA mapA).1.readMap
        (readerFactory.copyClones m fpA mapA).2.2 = m.readMap mapA ∧
    (readerFactory.copyClones m fpA mapA).2.1 ≠ fpA ∧
    (readerFactory.copyClones m fpA mapA).2.2 ≠ mapA ∧
    (∀ bs, ((readerFactory.copyClones m fpA mapA).1.writeFp
        (readerFactory.copyClones m fpA mapA).2.1 bs).readFp fpA = m.readFp fpA) ∧
    (∀ bs, ((readerFactory.copyClones m fpA mapA).1.writeFp fpA bs).readFp
        (readerFactory.copyClones m fpA mapA).2.1 = m.readFp fpA) ∧
    (∀ es, ((readerFactory.copyClones m fpA mapA).1.writeMap
        (readerFactory.copyClones m fpA mapA).2.2 es).readMap mapA = m.readMap mapA) ∧
    (∀ es, ((readerFactory.copyClones m fpA mapA).1.writeMap mapA es).readMap
        (readerFactory.copyClones m fpA mapA).2.2 = m.readMap mapA) := by
  have hfpne : m.fpCells.length ≠ fpA := fun hh => absurd (hh ▸ hfp) (lt_irrefl _)
  have hmapne : m.mapCells.length ≠ mapA := fun hh => absurd (hh ▸ hmap) (lt_irrefl _)
  have e1 : readerFactory.copyClones m fpA mapA
      = (⟨m.fpCells ++ [m.readFp fpA], m.mapCells ++ [m.readMap mapA]⟩,
         m.fpCells.length, m.mapCells.length) := rfl
  rw [e1]
  refine ⟨?_, ?_, hfpne, hmapne, ?_, ?_, ?_, ?_⟩
  · exact cellGet_append_self m.fpCells (m.readFp fpA) []
  · exact cellGet_append_self m.mapCells (m.readMap mapA) []
  · intro bs
    show cellGet (cellSet (m.fpCells ++ [m.readFp fpA]) m.fpCells.length bs) fpA []
        = m.readFp fpA
    rw [cellGet_set_ne _ _ _ _ _ hfpne, cellGet_append_lt _ _ _ _ hfp]
    rfl
  · intro bs
    show cellGet (cellSet (m.fpCells ++ [m.readFp fpA]) fpA bs) m.fpCells.length []
        = m.readFp fpA
    rw [cellGet_set_ne _ _ _ _ _ (fun hh => hfpne hh.symm),
      cellGet_append_self]
  · intro es
    show cellGet (cellSet (m.mapCells ++ [m.readMap mapA]) m.mapCells.length es) mapA []
        = m.readMap mapA
    rw [cellGet_set_ne _ _ _ _ _ hmapne, cellGet_append_lt _ _ _ _ hmap]
    rfl
  · intro es
    show cellGet (cellSet (m.mapCells ++ [m.readMap mapA]) mapA es) m.mapCells.length []
        = m.readMap mapA
    rw [cellGet_set_ne _ _ _ _ _ (fun hh => hmapne hh.symm),
      cellGet_append_self]

/-- C8 witness: on a two-cell heap, cloning cell 0 gives equal content at a
fresh address. -/
theorem copy_clones_independent_witness :
    (0 : Nat) < mem0.fpCells.length ∧ (0 : Nat) < mem0.mapCells.length ∧
    (readerFactory.copyClones mem0 0 0).1.readFp
        (readerFactory.copyClones mem0 0 0).2.1 = mem0.readFp 0 ∧
    (readerFactory.copyClones mem0 0 0).2.1 ≠ 0 :=
  ⟨by decide, by decide,
   (copy_clones_independent mem0 0 0 (by decide) (by decide)).1,
   (copy_clones_independent mem0 0 0 (by decide) (by decide)).2.2.1⟩

theorem resolvePaths_abs_logged (env : Env) (name : String)
    (habs : (env.abs (resolvedName env name)).2 = true) :
    "resolve abs" ∈ (resolvePaths env name).2 := by
  unfold resolvedName at habs
  unfold resolvePaths
  cases hw : env.isWindows <;> rw [hw] at habs <;> simp at habs <;> simp [habs]

/-- C9: failures while resolving a bound file's symlinked or absolute path
are logged but non-fatal: provided the genuinely fatal construction steps
succeed, build returns a Reader for every path-resolution behaviour, a
symlink-resolution failure is recorded in the log, and so is an
absolute-path resolution failure (each on its own or together). -/
theorem build_path_resolution_nonfatal (env : Env) (b : readerBuilder) (file : File)
    (ls enc : Nat) (ph : PhaseResult)
    (hf : b.file = some file) (hls : buildLineSplit b = .ok ls)
    (henc : b.factory.encodingBuild = .ok enc) (hph : buildPhase env b ls = .ok ph)
    (hstat : b.factory.fromBeginning = true ∨ file.statErr = false)
    (hfp : b.fp.isSome ∨ file.readErr = false) :
    ∃ r, readerBuilder.build env b = .ok r ∧
      (env.isWindows = false → (env.evalSymlinks file.name).2 = true →
        "resolve symlinks" ∈ r.logged) ∧
      ((env.abs (resolvedName env file.name)).2 = true →
        "resolve abs" ∈ r.logged) := by
  obtain ⟨r, hr, hlog⟩ := build_ok_construct hf hls henc hph hstat hfp
  refine ⟨r, hr, ?_, ?_⟩
  · intro hw hsym
    rw [hlog]
    exact resolvePaths_symlink_logged env file.name hw hsym
  · intro habs
    rw [hlog]
    exact resolvePaths_abs_logged env file.name habs

/-- C9 witness: with failing symlink resolution the build still succeeds and
logs it; with failing absolute-path resolution alone the build also still
succeeds and logs it. -/
theorem build_path_resolution_nonfatal_witness :
    readerBuilder.build envSym b0 = .ok rSym ∧
    "resolve symlinks" ∈ rSym.logged ∧
    readerBuilder.build envAbsErr b0 = .ok rAbsErr ∧
    "resolve abs" ∈ rAbsErr.logged := by
  obtain ⟨r1, hr1, hm1, _⟩ := build_path_resolution_nonfatal envSym b0 file0 1 0
    ⟨1, .emit, none, false⟩ rfl rfl rfl rfl (Or.inl rfl) (Or.inr rfl)
  obtain ⟨r2, hr2, _, hm2⟩ := build_path_resolution_nonfatal envAbsErr b0 file0 1 0
    ⟨1, .emit, none, false⟩ rfl rfl rfl rfl (Or.inl rfl) (Or.inr rfl)
  have he1 : rSym = r1 := by unfold rSym; rw [hr1]; rfl
  have he2 : rAbsErr = r2 := by unfold rAbsErr; rw [hr2]; rfl
  exact ⟨he1 ▸ hr1, he1 ▸ hm1 rfl rfl, he2 ▸ hr2, he2 ▸ hm2 rfl⟩

/-- C10: `unsafeReader` builds a placeholder Reader with no bound handle:
offset 0 even when fromBeginning is false, no file, no fingerprint, empty
attribute map and no resolution logging; but with header settings configured
(the fresh builder is never finalized) a failing header pipeline still makes
`unsafeReader` fail. -/
theorem unsafeReader_placeholder :
    (∀ env f r, readerFactory.unsafeReader env f = .ok r →
      r.offset = 0 ∧ r.file = none ∧ r.fingerprint = none ∧
      r.fileAttributes = [] ∧ r.loggerPath = "uninitialized" ∧ r.logged = []) ∧
    (∀ env f hs, f.headerSettings = some hs →
      ((∃ e, env.pipelineBuild hs.metadataOperators = .error e) ∨
       (∃ p e, env.pipelineBuild hs.metadataOperators = .ok p ∧
         env.pipelineStart p = .error e)) →
      ∃ e, readerFactory.unsafeReader env f = .error e) := by
  constructor
  · intro env f r h
    rw [unsafeReader_eq_build] at h
    exact build_ok_nofile h rfl
  · intro env f hs hset hfail
    exact build_err_of_pipeline (b := f.newReaderBuilder) hset rfl hfail

/-- C10 witness: the placeholder Reader of a start-at-end factory has offset
0 and nothing bound, and a failing pipeline fails `unsafeReader`. -/
theorem unsafeReader_placeholder_witness :
    (rUnsafe.offset = 0 ∧ rUnsafe.file = none ∧ rUnsafe.fingerprint = none ∧
      rUnsafe.fileAttributes = [] ∧ rUnsafe.loggerPath = "uninitialized" ∧
      rUnsafe.logged = []) ∧
    (∃ e, readerFactory.unsafeReader envPipeErr facH = .error e) :=
  ⟨unsafeReader_placeholder.1 env0 facEnd rUnsafe rfl,
   unsafeReader_placeholder.2 envPipeErr facH hs0 rfl (Or.inl ⟨"boom", rfl⟩)⟩

/-- C1: refuted by the code at a concrete input. `readerFactory.copy` does
NOT preserve the old Reader's Offset regardless of fromBeginning:
`build` runs `offsetToEnd` on every file-bound build including the copy
path, so with fromBeginning=false copying a Reader at offset 5 onto a
12-byte file yields a successor at offset 12; with fromBeginning=true the
offset 5 is preserved. -/
theorem copy_offset_overridden_when_fromEnd :
    old5.offset = 5 ∧
    readerFactory.copy env0 facEnd old5 file12 = .ok rCopyEnd ∧
    rCopyEnd.offset = 12 ∧
    readerFactory.copy env0 fac0 old5 file12 = .ok rCopyBeg ∧
    rCopyBeg.offset = 5 :=
  ⟨rfl, rfl, rfl, rfl, rfl⟩
